import Mathlib

/-!
Verification of the rocket-hawk header guard (src/error.rs, src/header.rs).

The core is `parse_header`: given a request's headers and a header name it
locates the unique matching header value, splits the `Hawk` scheme token from
the credential payload, and hands the payload to the external `hawk` crate
parser (`Header::from_str`).  The external parser is a boundary: the
development is parameterized over an arbitrary `fromStr` function, mirroring
the opaque `Result<Header, Error>` contract.

Strings are modelled as Lean `String`s; the byte-index arithmetic of the Rust
source (`hdr.find(' ')`, `hdr[..i]`, `hdr[i + 1..]`) is modelled on the
character list `hdr.toList`, which is faithful because the delimiter `' '` is
a single-byte ASCII character, so the byte split at the first space and the
character split at the first space cut the string at the same place.
-/

/-- ASCII lowercasing of a single character, as Rust's `to_ascii_lowercase`:
letters `A`..`Z` are shifted to lowercase, all other characters unchanged. -/
def asciiLower (c : Char) : Char :=
  if 'A' ≤ c ∧ c ≤ 'Z' then Char.ofNat (c.toNat + 32) else c

/-- Rust's `eq_ignore_ascii_case` on the two character lists. -/
def eqIgnoreAsciiCase (a b : List Char) : Bool :=
  a.map asciiLower == b.map asciiLower

/-- The expected scheme literal that `parse_header` compares against,
`"hawk"` in `hdr[..i].eq_ignore_ascii_case("hawk")`. -/
def hawkChars : List Char := ['h', 'a', 'w', 'k']

/-- Index of the first space character, as Rust's `hdr.find(' ')`. -/
def findSpaceIdx : List Char → Option Nat
  | [] => none
  | c :: cs => if c = ' ' then some 0 else (findSpaceIdx cs).map Nat.succ

/-- A request, reduced to what `parse_header` reads: the ordered sequence of
(name, value) header pairs. -/
structure Request where
  headers : List (String × String)

/-- Rocket's `request.headers().get(header_name)`: all values whose header
name matches `name` ASCII case-insensitively, in order. -/
def Request.headersGet (r : Request) (name : String) : List String :=
  (r.headers.filter (fun p => eqIgnoreAsciiCase p.fst.toList name.toList)).map
    Prod.snd

/-- `HawkError` from src/error.rs, with the external `hawk::Error` type
abstracted as `E`. -/
inductive HawkError (E : Type) where
  | NoHeader : HawkError E
  | BadHawk : E → HawkError E
  deriving DecidableEq

/-- Rocket's `request::Outcome`: success, or failure carrying an HTTP status
code and an error.  `Forward` exists in the framework type but is never
produced by this crate. -/
inductive Outcome (S E : Type) where
  | Success : S → Outcome S E
  | Failure : Nat × E → Outcome S E
  | Forward : Outcome S E
  deriving DecidableEq

def Outcome.map {S T E : Type} (f : S → T) : Outcome S E → Outcome T E
  | .Success s => .Success (f s)
  | .Failure e => .Failure e
  | .Forward => .Forward

/-- `Status::Unauthorized`. -/
def statusUnauthorized : Nat := 401

/-- `Status::BadRequest`. -/
def statusBadRequest : Nat := 400

/-- The private `struct AuthzHeader(Header)` wrapper, with the external
`hawk::Header` abstracted as `Cred`. -/
structure AuthzHeader (Cred : Type) where
  val : Cred
  deriving DecidableEq

/-- `parse_header` from src/header.rs.  `fromStr` is the external
`Header::from_str`.  The three-way match on the header count and the split of
`Hawk <value>` follow the source line by line. -/
def parse_header {Cred PErr : Type} (fromStr : String → Except PErr Cred)
    (request : Request) (header_name : String) :
    Outcome (AuthzHeader Cred) (HawkError PErr) :=
  match request.headersGet header_name with
  | [] => .Failure (statusUnauthorized, .NoHeader)
  | [hdr] =>
    match findSpaceIdx hdr.toList with
    | some i =>
      if eqIgnoreAsciiCase (hdr.toList.take i) hawkChars then
        match fromStr (String.mk (hdr.toList.drop (i + 1))) with
        | .ok h => .Success ⟨h⟩
        | .error e => .Failure (statusUnauthorized, .BadHawk e)
      else .Failure (statusUnauthorized, .NoHeader)
    | none => .Failure (statusUnauthorized, .NoHeader)
  | _ => .Failure (statusBadRequest, .NoHeader)

/-- `pub struct AuthorizationHeader(AuthzHeader)`. -/
structure AuthorizationHeader (Cred : Type) where
  inner : AuthzHeader Cred
  deriving DecidableEq

/-- `FromRequest for AuthorizationHeader`: `parse_header` on the
`authorization` header, mapped into the public wrapper. -/
def AuthorizationHeader.from_request {Cred PErr : Type}
    (fromStr : String → Except PErr Cred) (request : Request) :
    Outcome (AuthorizationHeader Cred) (HawkError PErr) :=
  (parse_header fromStr request ("authorization")).map AuthorizationHeader.mk

/-- `Deref for AuthorizationHeader`: `&(self.0).0`. -/
def AuthorizationHeader.deref {Cred : Type} (h : AuthorizationHeader Cred) :
    Cred :=
  h.inner.val

/-- `pub struct ServerAuthorizationHeader(AuthzHeader)`. -/
structure ServerAuthorizationHeader (Cred : Type) where
  inner : AuthzHeader Cred
  deriving DecidableEq

/-- `FromRequest for ServerAuthorizationHeader`: `parse_header` on the
`server-authorization` header. -/
def ServerAuthorizationHeader.from_request {Cred PErr : Type}
    (fromStr : String → Except PErr Cred) (request : Request) :
    Outcome (ServerAuthorizationHeader Cred) (HawkError PErr) :=
  (parse_header fromStr request ("server-authorization")).map
    ServerAuthorizationHeader.mk

/-- `Deref for ServerAuthorizationHeader`: `&(self.0).0`. -/
def ServerAuthorizationHeader.deref {Cred : Type}
    (h : ServerAuthorizationHeader Cred) : Cred :=
  h.inner.val

/-- A concrete credential shape used only to instantiate witnesses: the
fields of the external `hawk::Header` that the tests inspect. -/
structure Credential where
  id : Option String
  ts : Option String
  nonce : Option String
  mac : Option String
  deriving DecidableEq

/-- An "identity" stand-in for the external parser, used only in concrete
witnesses: it accepts every payload and returns it unchanged, making the
string handed across the parser boundary observable. -/
def okParse : String → Except String String := fun s => Except.ok s

example :
    parse_header okParse
      (Request.mk [(("Authorization"), ("Hawk abc"))]) ("authorization") =
      Outcome.Success ⟨("abc")⟩ := by decide

/-! ### Helper lemmas -/

theorem findSpaceIdx_eq_none {cs : List Char} (h : (' ') ∉ cs) :
    findSpaceIdx cs = none := by
  induction cs with
  | nil => rfl
  | cons c cs ih =>
    simp only [List.mem_cons, not_or] at h
    have hc : ¬c = ' ' := fun hc => h.1 hc.symm
    simp [findSpaceIdx, hc, ih h.2]

theorem findSpaceIdx_append (s t : List Char) (hs : (' ') ∉ s) :
    findSpaceIdx (s ++ (' ') :: t) = some s.length := by
  induction s with
  | nil => simp [findSpaceIdx]
  | cons c cs ih =>
    simp only [List.mem_cons, not_or] at hs
    have hc : ¬c = ' ' := fun hc => hs.1 hc.symm
    simp [findSpaceIdx, hc, ih hs.2]

theorem findSpaceIdx_lt_length {cs : List Char} {i : Nat}
    (h : findSpaceIdx cs = some i) : i < cs.length := by
  induction cs generalizing i with
  | nil => simp [findSpaceIdx] at h
  | cons c cs ih =>
    simp only [findSpaceIdx] at h
    by_cases hc : c = ' '
    · rw [if_pos hc] at h
      simp only [Option.some.injEq] at h
      simp only [List.length_cons]
      omega
    · rw [if_neg hc] at h
      simp only [Option.map_eq_some'] at h
      obtain ⟨j, hj, hi⟩ := h
      have := ih hj
      simp only [List.length_cons]
      omega

theorem string_toList_append (a b : String) :
    (a ++ b).toList = a.toList ++ b.toList := by
  cases a
  cases b
  rfl

theorem string_mk_toList (s : String) : String.mk s.toList = s := by
  cases s
  rfl

theorem take_length_append (s t : List Char) : (s ++ t).take s.length = s := by
  simp

theorem drop_length_succ_append (s : List Char) (c : Char) (t : List Char) :
    (s ++ c :: t).drop (s.length + 1) = t := by
  have h : s ++ c :: t = (s ++ [c]) ++ t := by simp
  have hl : (s ++ [c]).length = s.length + 1 := by simp
  rw [h, ← hl, List.drop_left]

/-- Evaluation of `parse_header` when exactly one matching header is
present, exposing the scheme-splitting branch. -/
theorem parse_header_one {Cred PErr : Type} (fromStr : String → Except PErr Cred)
    (req : Request) (name hdr : String) (h : req.headersGet name = [hdr]) :
    parse_header fromStr req name =
      (match findSpaceIdx hdr.toList with
      | some i =>
        if eqIgnoreAsciiCase (hdr.toList.take i) hawkChars then
          match fromStr (String.mk (hdr.toList.drop (i + 1))) with
          | .ok c => .Success ⟨c⟩
          | .error e => .Failure (statusUnauthorized, .BadHawk e)
        else .Failure (statusUnauthorized, .NoHeader)
      | none => .Failure (statusUnauthorized, .NoHeader)) := by
  unfold parse_header
  rw [h]

/-- `parse_header` reads the request only through the header values for the
inspected name: equal value sequences give equal outcomes, even across
different requests and different header names. -/
theorem parse_header_congr {Cred PErr : Type}
    (fromStr : String → Except PErr Cred) (req₁ req₂ : Request)
    (name₁ name₂ : String)
    (h : req₁.headersGet name₁ = req₂.headersGet name₂) :
    parse_header fromStr req₁ name₁ = parse_header fromStr req₂ name₂ := by
  unfold parse_header
  rw [h]

/-- Evaluation of `parse_header` when the scheme token matches: the external
parser is applied to exactly the substring after the first space. -/
theorem parse_header_hawk {Cred PErr : Type}
    (fromStr : String → Except PErr Cred) (req : Request) (name s p : String)
    (h1 : req.headersGet name = [s ++ (" ") ++ p])
    (h2 : (' ') ∉ s.toList)
    (h3 : eqIgnoreAsciiCase s.toList hawkChars = true) :
    parse_header fromStr req name =
      (match fromStr p with
      | .ok c => .Success ⟨c⟩
      | .error e => .Failure (statusUnauthorized, .BadHawk e)) := by
  rw [parse_header_one fromStr req name _ h1]
  have hsp : (" ").toList = [(' ')] := by decide
  have htl : (s ++ (" ") ++ p).toList = s.toList ++ (' ') :: p.toList := by
    rw [string_toList_append, string_toList_append, hsp, List.append_assoc,
      List.singleton_append]
  rw [htl, findSpaceIdx_append _ _ h2]
  simp only [take_length_append, drop_length_succ_append, h3, if_true,
    string_mk_toList]

/-! ### Claims -/

/-- C4: for every request with zero values for the guard's header name,
guard evaluation fails with `NoHeader` at HTTP status 401 Unauthorized. -/
theorem C4_zero_headers {Cred PErr : Type}
    (fromStr : String → Except PErr Cred) (req : Request) (name : String)
    (h : req.headersGet name = []) :
    parse_header fromStr req name =
      Outcome.Failure (statusUnauthorized, HawkError.NoHeader) := by
  unfold parse_header
  rw [h]

theorem C4_zero_headers_witness :
    parse_header okParse (Request.mk []) ("authorization") =
      Outcome.Failure (statusUnauthorized, HawkError.NoHeader) :=
  C4_zero_headers okParse (Request.mk []) ("authorization") rfl

/-- C1: for every request whose header set contains two or more values for
the guard's header name (even identical values), guard evaluation fails with
`NoHeader` at 400 Bad Request, regardless of header content; the statement is
quantified over the external parser, so the parser is never consulted. -/
theorem C1_duplicate_headers {Cred PErr : Type}
    (fromStr : String → Except PErr Cred) (req : Request) (name : String)
    (h : 2 ≤ (req.headersGet name).length) :
    parse_header fromStr req name =
      Outcome.Failure (statusBadRequest, HawkError.NoHeader) := by
  rcases hl : req.headersGet name with _ | ⟨a, _ | ⟨b, rest⟩⟩
  · rw [hl] at h; simp at h
  · rw [hl] at h; simp at h
  · unfold parse_header
    rw [hl]

theorem C1_duplicate_headers_witness :
    2 ≤ ((Request.mk
        [(("Authorization"), ("Hawk abc")), (("Authorization"), ("Hawk abc"))]
      ).headersGet ("authorization")).length ∧
    parse_header okParse
      (Request.mk
        [(("Authorization"), ("Hawk abc")), (("Authorization"), ("Hawk abc"))])
      ("authorization") =
      Outcome.Failure (statusBadRequest, HawkError.NoHeader) :=
  ⟨by decide,
    C1_duplicate_headers okParse
      (Request.mk
        [(("Authorization"), ("Hawk abc")), (("Authorization"), ("Hawk abc"))])
      ("authorization") (by decide)⟩

/-- C3: for every single matching header value containing no space at all,
guard evaluation fails with `NoHeader` at 401 — including a value that is
exactly the scheme token `Hawk`. -/
theorem C3_no_space {Cred PErr : Type}
    (fromStr : String → Except PErr Cred) (req : Request) (name hdr : String)
    (h1 : req.headersGet name = [hdr]) (h2 : (' ') ∉ hdr.toList) :
    parse_header fromStr req name =
      Outcome.Failure (statusUnauthorized, HawkError.NoHeader) := by
  rw [parse_header_one fromStr req name hdr h1, findSpaceIdx_eq_none h2]

theorem C3_no_space_witness :
    ((' ') ∉ ("Hawk").toList) ∧
    parse_header okParse (Request.mk [(("Authorization"), ("Hawk"))])
      ("authorization") =
      Outcome.Failure (statusUnauthorized, HawkError.NoHeader) :=
  ⟨by decide,
    C3_no_space okParse (Request.mk [(("Authorization"), ("Hawk"))])
      ("authorization") ("Hawk") (by decide) (by decide)⟩

/-- C9: guard evaluation is a pure function of the request's header values
for the guarded name: equal header sequences give equal outcomes.  (Absence
of side effects holds by construction: `parse_header` is a total function of
its arguments.) -/
theorem C9_pure_function {Cred PErr : Type}
    (fromStr : String → Except PErr Cred) (name : String)
    (req₁ req₂ : Request)
    (h : req₁.headersGet name = req₂.headersGet name) :
    parse_header fromStr req₁ name = parse_header fromStr req₂ name :=
  parse_header_congr fromStr req₁ req₂ name name h

theorem C9_pure_function_witness :
    ((Request.mk [(("Authorization"), ("Hawk abc")), (("X-Other"), ("v"))]
      ).headersGet ("authorization") =
      (Request.mk [(("AUTHORIZATION"), ("Hawk abc"))]
      ).headersGet ("authorization")) ∧
    parse_header okParse
      (Request.mk [(("Authorization"), ("Hawk abc")), (("X-Other"), ("v"))])
      ("authorization") =
    parse_header okParse (Request.mk [(("AUTHORIZATION"), ("Hawk abc"))])
      ("authorization") :=
  ⟨by decide,
    C9_pure_function okParse ("authorization")
      (Request.mk [(("Authorization"), ("Hawk abc")), (("X-Other"), ("v"))])
      (Request.mk [(("AUTHORIZATION"), ("Hawk abc"))]) (by decide)⟩

/-- C2: the token before the first space is compared with `Hawk` ASCII
case-insensitively: if it differs (including the empty token) evaluation
fails with `NoHeader` at 401, and if it matches under any casing evaluation
proceeds identically regardless of the casing used. -/
theorem C2_scheme_case {Cred PErr : Type}
    (fromStr : String → Except PErr Cred) (req₁ req₂ : Request)
    (name hdr s₁ s₂ p : String) (i : Nat) :
    (req₁.headersGet name = [hdr] →
      findSpaceIdx hdr.toList = some i →
      eqIgnoreAsciiCase (hdr.toList.take i) hawkChars = false →
      parse_header fromStr req₁ name =
        Outcome.Failure (statusUnauthorized, HawkError.NoHeader)) ∧
    (req₁.headersGet name = [s₁ ++ (" ") ++ p] →
      req₂.headersGet name = [s₂ ++ (" ") ++ p] →
      (' ') ∉ s₁.toList → (' ') ∉ s₂.toList →
      eqIgnoreAsciiCase s₁.toList hawkChars = true →
      eqIgnoreAsciiCase s₂.toList hawkChars = true →
      parse_header fromStr req₁ name = parse_header fromStr req₂ name) := by
  constructor
  · intro h1 h2 h3
    rw [parse_header_one fromStr req₁ name hdr h1, h2]
    simp only [h3]
    rfl
  · intro ha hb hs₁ hs₂ he₁ he₂
    rw [parse_header_hawk fromStr req₁ name s₁ p ha hs₁ he₁,
      parse_header_hawk fromStr req₂ name s₂ p hb hs₂ he₂]

theorem C2_scheme_case_witness :
    parse_header okParse (Request.mk [(("Authorization"), ("Bearer xyz"))])
      ("authorization") =
      Outcome.Failure (statusUnauthorized, HawkError.NoHeader) ∧
    parse_header okParse (Request.mk [(("Authorization"), ("HAWK abc"))])
      ("authorization") =
    parse_header okParse (Request.mk [(("Authorization"), ("hawk abc"))])
      ("authorization") :=
  ⟨(C2_scheme_case okParse
      (Request.mk [(("Authorization"), ("Bearer xyz"))])
      (Request.mk [(("Authorization"), ("Bearer xyz"))])
      ("authorization") ("Bearer xyz") ("x") ("x") ("x") 6).1
      (by decide) (by decide) (by decide),
    (C2_scheme_case okParse
      (Request.mk [(("Authorization"), ("HAWK abc"))])
      (Request.mk [(("Authorization"), ("hawk abc"))])
      ("authorization") ("x") ("HAWK") ("hawk") ("abc") 0).2
      (by decide) (by decide) (by decide) (by decide) (by decide)
      (by decide)⟩

/-- C5: when the scheme token matches, the external parser receives exactly
the substring of the header value strictly after the first space — possibly
empty, consecutive spaces not collapsed, leading whitespace preserved — and
the outcome is determined by the parser's answer on exactly that string. -/
theorem C5_payload_exact {Cred PErr : Type}
    (fromStr : String → Except PErr Cred) (req : Request) (name s p : String)
    (h1 : req.headersGet name = [s ++ (" ") ++ p])
    (h2 : (' ') ∉ s.toList)
    (h3 : eqIgnoreAsciiCase s.toList hawkChars = true) :
    parse_header fromStr req name =
      (match fromStr p with
      | .ok c => .Success ⟨c⟩
      | .error e => .Failure (statusUnauthorized, .BadHawk e)) :=
  parse_header_hawk fromStr req name s p h1 h2 h3

theorem C5_payload_exact_witness :
    parse_header okParse (Request.mk [(("Authorization"), ("Hawk   x "))])
      ("authorization") = Outcome.Success ⟨("  x ")⟩ :=
  C5_payload_exact okParse
    (Request.mk [(("Authorization"), ("Hawk   x "))]) ("authorization")
    ("Hawk") ("  x ") (by decide) (by decide) (by decide)

/-- C6: when the scheme token matches and the external parser rejects the
payload, evaluation fails with `BadHawk` at 401, wrapping the parser's error
value verbatim. -/
theorem C6_bad_payload {Cred PErr : Type}
    (fromStr : String → Except PErr Cred) (req : Request) (name s p : String)
    (e : PErr)
    (h1 : req.headersGet name = [s ++ (" ") ++ p])
    (h2 : (' ') ∉ s.toList)
    (h3 : eqIgnoreAsciiCase s.toList hawkChars = true)
    (h4 : fromStr p = Except.error e) :
    parse_header fromStr req name =
      Outcome.Failure (statusUnauthorized, HawkError.BadHawk e) := by
  rw [parse_header_hawk fromStr req name s p h1 h2 h3, h4]

/-- A parser stand-in that rejects every payload, reporting the payload
itself as the error value, used to observe verbatim error wrapping. -/
def rejectParse : String → Except String String := fun s => Except.error s

theorem C6_bad_payload_witness :
    parse_header rejectParse
      (Request.mk [(("Authorization"), ("Hawk nosuchfield=abc"))])
      ("authorization") =
      Outcome.Failure
        (statusUnauthorized, HawkError.BadHawk ("nosuchfield=abc")) :=
  C6_bad_payload rejectParse
    (Request.mk [(("Authorization"), ("Hawk nosuchfield=abc"))])
    ("authorization") ("Hawk") ("nosuchfield=abc") ("nosuchfield=abc")
    (by decide) (by decide) (by decide) rfl

/-- C7: when the scheme token matches and the external parser accepts the
payload, the guard succeeds holding the parsed credential, and the
dereference accessor exposes that credential unchanged. -/
theorem C7_success_deref {Cred PErr : Type}
    (fromStr : String → Except PErr Cred) (req : Request) (s p : String)
    (c : Cred)
    (h1 : req.headersGet ("authorization") = [s ++ (" ") ++ p])
    (h2 : (' ') ∉ s.toList)
    (h3 : eqIgnoreAsciiCase s.toList hawkChars = true)
    (h4 : fromStr p = Except.ok c) :
    AuthorizationHeader.from_request fromStr req =
      Outcome.Success (AuthorizationHeader.mk (AuthzHeader.mk c)) ∧
    (AuthorizationHeader.mk (AuthzHeader.mk c)).deref = c := by
  constructor
  · unfold AuthorizationHeader.from_request
    rw [parse_header_hawk fromStr req ("authorization") s p h1 h2 h3, h4]
    rfl
  · rfl

/-- The example credential of the spec's success scenario. -/
def exampleCredential : Credential :=
  ⟨some ("xyz"), some ("1353832234"), some ("abc"),
    some ("6R4rV5iE+NPoym+WwjeHzjAGXUtLNIxmo1vpMofpLAE=")⟩

/-- The example payload of the spec's success scenario. -/
def examplePayload : String :=
  "id=\"xyz\", ts=\"1353832234\", nonce=\"abc\", mac=\"6R4rV5iE+NPoym+WwjeHzjAGXUtLNIxmo1vpMofpLAE=\""

/-- A parser stand-in that accepts exactly the example payload. -/
def credParse : String → Except String Credential := fun s =>
  if s == examplePayload then Except.ok exampleCredential
  else Except.error s

theorem C7_success_deref_witness :
    (AuthorizationHeader.from_request credParse
      (Request.mk [(("Authorization"), ("Hawk ") ++ examplePayload)]) =
      Outcome.Success
        (AuthorizationHeader.mk (AuthzHeader.mk exampleCredential)) ∧
    (AuthorizationHeader.mk (AuthzHeader.mk exampleCredential)).deref =
      exampleCredential) ∧
    exampleCredential.id = some ("xyz") :=
  ⟨C7_success_deref credParse
    (Request.mk [(("Authorization"), ("Hawk ") ++ examplePayload)])
    ("Hawk") examplePayload exampleCredential
    (by decide) (by decide) (by decide) rfl, rfl⟩

/-- C8: the two guards compute identical outcomes for the same raw header
content, differing only in which header name they look up. -/
theorem C8_guards_agree {Cred PErr : Type}
    (fromStr : String → Except PErr Cred) (req₁ req₂ : Request)
    (h : req₁.headersGet ("authorization") =
      req₂.headersGet ("server-authorization")) :
    Outcome.map AuthorizationHeader.inner
        (AuthorizationHeader.from_request fromStr req₁) =
      Outcome.map ServerAuthorizationHeader.inner
        (ServerAuthorizationHeader.from_request fromStr req₂) := by
  unfold AuthorizationHeader.from_request ServerAuthorizationHeader.from_request
  rw [parse_header_congr fromStr req₁ req₂ ("authorization")
    ("server-authorization") h]
  cases parse_header fromStr req₂ ("server-authorization") <;> rfl

theorem C8_guards_agree_witness :
    Outcome.map AuthorizationHeader.inner
        (AuthorizationHeader.from_request okParse
          (Request.mk [(("Authorization"), ("Hawk abc"))])) =
      Outcome.map ServerAuthorizationHeader.inner
        (ServerAuthorizationHeader.from_request okParse
          (Request.mk [(("Server-Authorization"), ("Hawk abc"))])) :=
  C8_guards_agree okParse
    (Request.mk [(("Authorization"), ("Hawk abc"))])
    (Request.mk [(("Server-Authorization"), ("Hawk abc"))]) (by decide)

/-- Bounds-checked slice `cs[..i]`; `none` models a Rust slice panic. -/
def sliceTo (cs : List Char) (i : Nat) : Option (List Char) :=
  if i ≤ cs.length then some (cs.take i) else none

/-- Bounds-checked slice `cs[i..]`; `none` models a Rust slice panic. -/
def sliceFrom (cs : List Char) (i : Nat) : Option (List Char) :=
  if i ≤ cs.length then some (cs.drop i) else none

/-- `parse_header` with every partial operation of the Rust source made
explicit: the count is inspected as in the source's `match hdrs.len()`, the
indexing `hdrs[0]` and the slices `hdr[..i]` and `hdr[i + 1..]` return
`none` — modelling a panic — when out of bounds. -/
def parse_headerChecked {Cred PErr : Type}
    (fromStr : String → Except PErr Cred) (request : Request)
    (header_name : String) :
    Option (Outcome (AuthzHeader Cred) (HawkError PErr)) :=
  let hdrs := request.headersGet header_name
  match hdrs.length with
  | 0 => some (.Failure (statusUnauthorized, .NoHeader))
  | 1 =>
    match hdrs[0]? with
    | none => none
    | some hdr =>
      match findSpaceIdx hdr.toList with
      | some i =>
        match sliceTo hdr.toList i, sliceFrom hdr.toList (i + 1) with
        | some tok, some rest =>
          if eqIgnoreAsciiCase tok hawkChars then
            match fromStr (String.mk rest) with
            | .ok c => some (.Success ⟨c⟩)
            | .error e => some (.Failure (statusUnauthorized, .BadHawk e))
          else some (.Failure (statusUnauthorized, .NoHeader))
        | _, _ => none
      | none => some (.Failure (statusUnauthorized, .NoHeader))
  | _ => some (.Failure (statusBadRequest, .NoHeader))

/-- C10: guard evaluation is total and never panics: the bounds-checked
model always returns `some` outcome, agreeing with `parse_header`, and the
index of a found space always satisfies `i + 1 ≤` the value's length, so
both slices are in bounds. -/
theorem C10_no_panic {Cred PErr : Type}
    (fromStr : String → Except PErr Cred) (req : Request) (name : String)
    (cs : List Char) (i : Nat) (h : findSpaceIdx cs = some i) :
    parse_headerChecked fromStr req name =
      some (parse_header fromStr req name) ∧
    i + 1 ≤ cs.length := by
  refine ⟨?_, findSpaceIdx_lt_length h⟩
  rcases hl : req.headersGet name with _ | ⟨a, _ | ⟨b, rest⟩⟩
  · simp [parse_headerChecked, parse_header, hl]
  · rcases hsp : findSpaceIdx a.data with _ | j
    · simp [parse_headerChecked, parse_header, hl, hsp]
    · have hj : j < a.data.length := findSpaceIdx_lt_length hsp
      have hj0 : j ≤ a.length := Nat.le_of_lt hj
      have hj1 : j + 1 ≤ a.length := hj
      simp [parse_headerChecked, parse_header, hl, hsp, sliceTo, sliceFrom,
        hj0, hj1]
      by_cases hb : eqIgnoreAsciiCase (List.take j a.data) hawkChars = true
      · rw [if_pos hb, if_pos hb]
        cases fromStr (String.mk (List.drop (j + 1) a.data)) <;> rfl
      · rw [if_neg hb, if_neg hb]
  · simp [parse_headerChecked, parse_header, hl]

theorem C10_no_panic_witness :
    (parse_headerChecked okParse
        (Request.mk [(("Authorization"), ("Hawk abc"))]) ("authorization") =
      some (parse_header okParse
        (Request.mk [(("Authorization"), ("Hawk abc"))]) ("authorization"))) ∧
    4 + 1 ≤ ("Hawk abc").toList.length :=
  C10_no_panic okParse (Request.mk [(("Authorization"), ("Hawk abc"))])
    ("authorization") (("Hawk abc").toList) 4 (by decide)
